import Mathlib

/- The Batteries `Rat` arithmetic operations are `@[irreducible]`, which
blocks `decide` from evaluating the embedded functions on concrete rational
inputs; restore the default reducibility for them locally. -/
attribute [local semireducible] Rat.mul Rat.add Rat.sub Rat.inv Rat.ofScientific

set_option maxRecDepth 100000

/-!
Verification development for the PyREmatcher heating scheduler.

This file shallowly embeds the parts of the repository needed to settle the
frozen claims: the stratified hot-water tank model (`scheduler/hotwatertank.py`),
the heat-pump model (`scheduler/heatpump.py`), the evaluator
(`scheduler/simulator.py`), and the scheduler's greedy add-hour loop
(`scheduler/__init__.py`).

Modelling conventions:
* Python floats are modelled as exact rationals (`ℚ`); numeric literals from
  the source are carried over verbatim as rationals.
* Python exceptions are modelled with `Except TankExc`; the `TankWarning`
  ("entire tank circulated"), the fatal `TankError` mass-imbalance raise and
  the remaining error conditions (zero division, singular matrix) are kept
  apart so that handlers that only catch `TankWarning` can be modelled.
* Node arrays are lists indexed from the bottom node 0 to the top node
  `nodes - 1`, exactly as in the source.
* `while` loops are written as fuel-indexed recursion with enough fuel that
  the out-of-fuel branch is unreachable for the fuel the wrappers pass.
-/

/-- Exceptions of the tank model: `warning` is `TankWarning` (entire tank
circulated within one timestep), `massImbalance` is the fatal `TankError`
raised by `process_timestep`, and `err` collects the remaining Python errors
(zero division, singular-matrix `LinAlgError`, exhausted fuel). -/
inductive TankExc where
  | warning
  | massImbalance
  | err
deriving DecidableEq, Repr

/-- State of `hotwatertank.Tank`: the physical characteristics together with
the node temperatures and the pending per-node mass flows of the current
timestep.  Defaults are the class attributes of the source. -/
structure Tank where
  nodes : ℕ
  node_mass : ℚ
  outflow_node : ℕ
  heater_draw_node : ℕ
  load_supply_temp : ℚ := 50
  load_return_temp : ℚ := 20
  fluid_specific_heat : ℚ := 11444 / 10000000
  fluid_conductance : ℚ := 64 / 100000
  wall_U_value : ℚ := 11 / 100000
  node_area : ℚ := 1
  node_height : ℚ := 1
  node_surface : ℚ := 1
  T_amb : ℚ := 20
  timestep : ℚ := 1
  node_temps : List ℚ
  input_masses : List ℚ
  input_temps : List ℚ
  output_masses : List ℚ
deriving DecidableEq, Repr

/-- Embedding of `Tank.get_outflow_temp`. -/
def get_outflow_temp (s : Tank) : ℚ :=
  s.node_temps.getD s.outflow_node 0

/-- Embedding of `Tank.get_hp_draw_temp`. -/
def get_hp_draw_temp (s : Tank) : ℚ :=
  s.node_temps.getD s.heater_draw_node 0

/-- Embedding of `Tank._mix_temps` applied to two fluids `(t1, m1)` and `(t2, m2)`.
Python raises `ZeroDivisionError` when the total mass is zero; here `ℚ`
division by zero yields 0, which no claim exercises (all scenarios mix with a
positive total mass). -/
def mix_temps (t1 m1 t2 m2 : ℚ) : ℚ :=
  (t1 * m1 + t2 * m2) / (m1 + m2)

/-- The last assignment made by the scan
`for i in range(nodes-1, 0, -1): if T_in >= node_temps[i]: target_node = i`
in `Tank._reinject`: the smallest `i ∈ [1, nodes-1]` whose temperature is at
most `T_in`, if any. -/
def last_assign (nodes : ℕ) (temps : List ℚ) (T_in : ℚ) : Option ℕ :=
  ((List.range' 1 (nodes - 1)).filter (fun i => decide (temps.getD i 0 ≤ T_in))).head?

/-- The target node chosen by `Tank._reinject` (lines 105-115).  If `T_in` is
at least the top node's temperature the target is the top node.  Otherwise the
scan runs; since its body contains no `break`, Python's `for`-`else` clause
always executes afterwards and overwrites `target_node` with 0, so any
assignment made by the scan (`last_assign`) is dead. -/
def reinjectTarget (nodes : ℕ) (temps : List ℚ) (T_in : ℚ) : ℕ :=
  if temps.getD (nodes - 1) 0 ≤ T_in then nodes - 1
  else
    let _dead := last_assign nodes temps T_in
    0

/-- The distribution `while` loop of `Tank._reinject` (lines 122-167), as
fuel-indexed recursion.  One iteration absorbs as much of `remaining` into
node `j` as fits (`node_mass` minus the mass already entering the node), mixes
the temperatures, and moves the injection pointer: downwards from the target
to node 0, then upwards from just above the target; running out of nodes
raises `TankWarning`.  The pointer changes on every iteration with remaining
mass, so `nodes + 1` fuel always suffices and the out-of-fuel branch (mapped
to `.err`) is unreachable for the fuel `reinject` passes. -/
def reinjectLoop (nm T_in : ℚ) (nodes target : ℕ) :
    ℕ → ℕ → ℚ → List ℚ → List ℚ → Except TankExc (List ℚ × List ℚ)
  | 0, _, remaining, inM, inT =>
    if remaining ≤ 0 then .ok (inM, inT) else .error .err
  | f + 1, j, remaining, inM, inT =>
    if remaining ≤ 0 then .ok (inM, inT)
    else
        let cur := inM.getD j 0
        let mass_for_this_node := if nm < remaining + cur then nm - cur else remaining
        let remaining2 := remaining - mass_for_this_node
        let inT2 := inT.set j (mix_temps (inT.getD j 0) cur T_in mass_for_this_node)
        let inM2 := inM.set j (cur + mass_for_this_node)
        if 0 < remaining2 then
          if 0 < j ∧ j ≤ target then
            reinjectLoop nm T_in nodes target f (j - 1) remaining2 inM2 inT2
          else if j = 0 ∧ target < nodes - 1 then
            reinjectLoop nm T_in nodes target f (target + 1) remaining2 inM2 inT2
          else if target < j ∧ j < nodes - 1 then
            reinjectLoop nm T_in nodes target f (j + 1) remaining2 inM2 inT2
          else
            .error .warning
        else
          reinjectLoop nm T_in nodes target f j remaining2 inM2 inT2

/-- Embedding of `Tank._reinject`: apportion `mass` kg of fluid at `T_in` between the nodes
starting at the manifold target node. -/
def reinject (s : Tank) (T_in mass : ℚ) : Except TankExc Tank :=
  let target := reinjectTarget s.nodes s.node_temps T_in
  match reinjectLoop s.node_mass T_in s.nodes target (s.nodes + 1) target mass
      s.input_masses s.input_temps with
  | .error e => .error e
  | .ok (inM, inT) => .ok { s with input_masses := inM, input_temps := inT }

/-- Embedding of `Tank.inject_heat`: below a 5-degree differential nothing happens and 0
energy is returned; otherwise `mass_in` kg is drawn from the heater draw node
and reinjected at `T_in`, returning the absorbed energy. -/
def inject_heat (s : Tank) (mass_in T_in : ℚ) : Except TankExc (Tank × ℚ) :=
  if T_in - get_hp_draw_temp s < 5 then .ok (s, 0)
  else
    let delta_T := T_in - get_hp_draw_temp s
    let Q_in := mass_in * s.fluid_specific_heat * delta_T
    let newOut :=
      s.output_masses.set s.heater_draw_node
        (s.output_masses.getD s.heater_draw_node 0 + mass_in)
    let s1 := { s with output_masses := newOut }
    match reinject s1 T_in mass_in with
    | .error e => .error e
    | .ok s2 => .ok (s2, Q_in)

/-- Embedding of `Tank.draw_load`: zero demand is a no-op returning `none` (Python
`return` with no value); otherwise the mass needed to supply `Q_out` is
computed (mixing with the return when the outflow is above the supply
temperature), returned to the tank through the manifold, and recorded as
outflow.  The Python `ZeroDivisionError` cases are mapped to `.err`. -/
def draw_load (s : Tank) (Q_out : ℚ) : Except TankExc (Tank × Option ℚ) :=
  if Q_out = 0 then .ok (s, none)
  else
    let delta_T := s.load_supply_temp - s.load_return_temp
    let tank_delta := get_outflow_temp s - s.load_return_temp
    let massE : Except TankExc ℚ :=
      if get_outflow_temp s > s.load_supply_temp then
        if delta_T * s.fluid_specific_heat = 0 then .error .err
        else if tank_delta = 0 then .error .err
        else .ok (Q_out / (delta_T * s.fluid_specific_heat) * delta_T / tank_delta)
      else
        if tank_delta * s.fluid_specific_heat = 0 then .error .err
        else .ok (Q_out / (tank_delta * s.fluid_specific_heat))
    match massE with
    | .error e => .error e
    | .ok mass_from_tank =>
      match reinject s s.load_return_temp mass_from_tank with
      | .error e => .error e
      | .ok s1 =>
        let newOut :=
          s1.output_masses.set s.outflow_node
            (s1.output_masses.getD s.outflow_node 0 + mass_from_tank)
        .ok ({ s1 with output_masses := newOut }, some mass_from_tank)

/-- The running accumulation `mass_upflow_in` of `Tank.process_timestep`:
`mass_upflow inM outM k` is the mass spilling up out of node `k - 1`
(0 below the bottom node). -/
def mass_upflow (inM outM : List ℚ) : ℕ → ℚ
  | 0 => 0
  | k + 1 => mass_upflow inM outM k + inM.getD k 0 - outM.getD k 0

/-- Exposed loss area of node `n` (`loss_area` in `process_timestep`): the
top and bottom nodes additionally lose through the end caps. -/
def loss_area (s : Tank) (n : ℕ) : ℚ :=
  s.node_surface + (if n = 0 ∨ n = s.nodes - 1 then s.node_area else 0)

/-- The conduction coefficient `fluid_conductance * node_area / node_height`
appearing throughout the matrix assembly. -/
def cond_term (s : Tank) : ℚ :=
  s.fluid_conductance * s.node_area / s.node_height

/-- Entry `A[n, m]` of the linear system assembled by `process_timestep`
(lines 307-337); entries other than the diagonal and the two neighbouring
bands stay at their initial 0. -/
def entryA (s : Tank) (n m : ℕ) : ℚ :=
  let Uin := mass_upflow s.input_masses s.output_masses n
  let Uout := mass_upflow s.input_masses s.output_masses (n + 1)
  if m = n then
    s.node_mass * s.fluid_specific_heat / s.timestep
      + s.output_masses.getD n 0 * s.fluid_specific_heat
      + cond_term s
      + s.wall_U_value * loss_area s n
      + (if 0 < n ∧ n < s.nodes - 1 then cond_term s else 0)
      + (if 0 < Uout then Uout * s.fluid_specific_heat else 0)
      + (if Uin < 0 then -(Uin * s.fluid_specific_heat) else 0)
  else if 0 < n ∧ m + 1 = n then
    -(cond_term s) - (if 0 < Uin then Uin * s.fluid_specific_heat else 0)
  else if m = n + 1 ∧ n < s.nodes - 1 then
    -(cond_term s) + (if Uout < 0 then Uout * s.fluid_specific_heat else 0)
  else 0

/-- Entry `C[n]` of the linear system assembled by `process_timestep`
(lines 339-344). -/
def entryC (s : Tank) (n : ℕ) : ℚ :=
  s.node_mass * s.fluid_specific_heat * s.node_temps.getD n 0 / s.timestep
    + s.wall_U_value * loss_area s n * s.T_amb
    + s.input_masses.getD n 0 * s.fluid_specific_heat * s.input_temps.getD n 0

/-- The assembled matrix `A` as a list of rows. -/
def matA (s : Tank) : List (List ℚ) :=
  (List.range s.nodes).map fun n => (List.range s.nodes).map fun m => entryA s n m

/-- The assembled vector `C`. -/
def vecC (s : Tank) : List ℚ :=
  (List.range s.nodes).map (entryC s)

/-- Determinant by Laplace expansion along the first row, fuel-indexed by the
number of rows so that the recursion is structural. -/
def detFuel : ℕ → List (List ℚ) → ℚ
  | 0, _ => 1
  | _, [] => 1
  | f + 1, r :: rest =>
    (List.range r.length).foldl
      (fun acc j =>
        acc + (if j % 2 = 0 then (1 : ℚ) else -1) * r.getD j 0 *
          detFuel f (rest.map fun row => row.eraseIdx j))
      0

/-- Replace column `j` of `M` by `c`. -/
def set_column (M : List (List ℚ)) (j : ℕ) (c : List ℚ) : List (List ℚ) :=
  List.zipWith (fun row v => row.set j v) M c

/-- The solve `np.linalg.solve(A, C)` of `process_timestep`, by Cramer's rule
(mathematically equal to the NumPy result for a nonsingular system); `none`
models the `LinAlgError` NumPy raises on a singular matrix. -/
def tank_solve (s : Tank) : Option (List ℚ) :=
  let A := matA s
  let Cv := vecC s
  let d := detFuel s.nodes A
  if d = 0 then none
  else some ((List.range s.nodes).map fun i => detFuel s.nodes (set_column A i Cv) / d)

/-- Embedding of `Tank.process_timestep`: if the accumulated flow out of the top node
exceeds the 0.0001 tolerance (positive direction only - the source compares
`mass_upflow_in > 0.0001`, not its absolute value) the fatal mass-imbalance
`TankError` is raised; otherwise the linear system is solved, the new node
temperatures are written and the pending flows are reset. -/
def process_timestep (s : Tank) : Except TankExc Tank :=
  if mass_upflow s.input_masses s.output_masses s.nodes > 1 / 10000 then
    .error .massImbalance
  else
    match tank_solve s with
    | none => .error .err
    | some T =>
      .ok { s with
            input_masses := List.replicate s.nodes 0,
            input_temps := List.replicate s.nodes 0,
            output_masses := List.replicate s.nodes 0,
            node_temps := T }

/-- Recognises the fatal mass-imbalance raise of `process_timestep`. -/
def is_mass_imbalance : Except TankExc Tank → Bool
  | .error .massImbalance => true
  | _ => false

/-- Well-formedness of a tank state as produced by `Tank.__init__`: at least
one node, node arrays of matching length, draw nodes in range, a positive
specific heat and a return temperature below the supply temperature. -/
def TankWF (s : Tank) : Prop :=
  0 < s.nodes ∧ s.node_temps.length = s.nodes ∧ s.input_masses.length = s.nodes ∧
    s.input_temps.length = s.nodes ∧ s.output_masses.length = s.nodes ∧
    s.outflow_node < s.nodes ∧ s.heater_draw_node < s.nodes ∧
    0 < s.fluid_specific_heat ∧ s.load_return_temp < s.load_supply_temp

instance (s : Tank) : Decidable (TankWF s) := by
  unfold TankWF; infer_instance

/-- State of `heatpump.HeatPump`; defaults are the class attributes of the
source (Mitsubishi Ecodan PUHZ-HW140V). -/
structure HeatPump where
  fluid_specific_heat : ℚ := 11444 / 10000000
  timestep : ℚ := 1
  T_amb : ℚ := 82 / 10
  T_out : ℚ := 60
  nominal_power : ℚ := 14
  max_flow_rate : ℚ := 40
deriving DecidableEq, Repr

/-- Embedding of `HeatPump._COP_coefficients`: the defrost-mode regression at or below 2
degrees ambient, the normal regression above. -/
def cop_coefficients (hp : HeatPump) : List ℚ :=
  if hp.T_amb ≤ 2 then
    [3254509975 / 1000000000, 55426116 / 1000000000, 7181906 / 1000000000,
     -(1549673 / 1000000000), -(509163 / 1000000000), -(51864 / 100000000)]
  else
    [5526028912 / 1000000000, 1251938 / 10000000, -(714286 / 1000000000),
     -(54584426 / 1000000000), -(317198 / 10000000000), -(1400534 / 1000000000)]

/-- The COP regression evaluated in `HeatPump.deliver_heat` (lines 70-73). -/
def cop (hp : HeatPump) : ℚ :=
  let c := cop_coefficients hp
  c.getD 0 0 + c.getD 1 0 * hp.T_amb + c.getD 2 0 * (hp.T_amb * hp.T_amb)
    + c.getD 3 0 * hp.T_out + c.getD 4 0 * (hp.T_out * hp.T_out)
    + c.getD 5 0 * hp.T_amb * hp.T_out

/-- Result of `HeatPump.deliver_heat`: which of the two non-fatal warnings
were emitted, and the electrical energy returned. -/
structure DeliverResult where
  flowWarning : Bool
  capacityWarning : Bool
  elec : ℚ
deriving DecidableEq, Repr

/-- Embedding of `HeatPump.deliver_heat`: the required heat `(T_out - T_in) * mass * c` is
clamped to `nominal_power * timestep` when it exceeds it beyond the 0.01
floating-point tolerance (emitting the capacity warning), and the electrical
consumption `heat / COP` is returned. -/
def deliver_heat (hp : HeatPump) (T_in mass : ℚ) : DeliverResult :=
  let flowW := mass > hp.max_flow_rate * hp.timestep * 60
  let COP := cop hp
  let heat_required := (hp.T_out - T_in) * mass * hp.fluid_specific_heat
  let max_heat_deliverable := hp.nominal_power * hp.timestep
  if heat_required - max_heat_deliverable > 1 / 100 then
    { flowWarning := flowW, capacityWarning := true,
      elec := max_heat_deliverable / COP }
  else
    { flowWarning := flowW, capacityWarning := false,
      elec := heat_required / COP }

/-- Embedding of `HeatPump.heatable_mass`: the mass heatable to `T_out` in a timestep,
clamped to the maximum flow; the division `nominal_power * timestep /
(fluid_specific_heat * delta_T)` has no guard, so `none` models the
`ZeroDivisionError` Python raises when the divisor is zero. -/
def heatable_mass (hp : HeatPump) (T_in : ℚ) : Option ℚ :=
  let delta_T := hp.T_out - T_in
  if hp.fluid_specific_heat * delta_T = 0 then none
  else
    let mass := hp.nominal_power * hp.timestep / (hp.fluid_specific_heat * delta_T)
    let max_mass := hp.max_flow_rate * 60 * hp.timestep
    if mass > max_mass then some max_mass else some mass

/-- The heat pump with the hardcoded characteristics of the source. -/
def defaultHeatPump : HeatPump := {}

/-- One hour of the data frames handed to `Simulator.run_simulation`: the
forecast ambient temperature, the anticipated demand, the planned schedule
entry and the anticipated surplus, all on the same index. -/
structure SimHour where
  temperature : ℚ
  demand : ℚ
  schedule : Bool
  surplus : ℚ
deriving DecidableEq, Repr

/-- One tank sub-step of `Simulator.run_simulation` (lines 92-122): draw the
demand, heat if scheduled (computing the electrical cost when any heat was
absorbed), then perform the tank timestep. -/
def sim_substep (hp : HeatPump) (schedOn : Bool) (subDemand : ℚ) (s : Tank) :
    Except TankExc (Tank × ℚ) :=
  match draw_load s subDemand with
  | .error e => .error e
  | .ok (s1, _) =>
    if schedOn then
      match heatable_mass hp (get_hp_draw_temp s1) with
      | none => .error .err
      | some mass_to_heat =>
        match inject_heat s1 mass_to_heat hp.T_out with
        | .error e => .error e
        | .ok (s2, Q_in) =>
          let elec_in :=
            if Q_in ≠ 0 then (deliver_heat hp (get_hp_draw_temp s2) mass_to_heat).elec
            else 0
          match process_timestep s2 with
          | .error e => .error e
          | .ok s3 => .ok (s3, elec_in)
    else
      match process_timestep s1 with
      | .error e => .error e
      | .ok s2 => .ok (s2, 0)

/-- Outcome of one hour's sub-step loop: completed with the new tank state and
the hour's electricity, terminated by the caught `TankWarning` with the
electricity accumulated so far this hour, or aborted by a re-raised
exception. -/
inductive SubstepsResult where
  | ok (s : Tank) (elec : ℚ)
  | warned (elec : ℚ)
  | failed
deriving DecidableEq, Repr

/-- The sub-step loop of one hour of `Simulator.run_simulation`, accumulating
`elec_this_timestep`.  A `TankWarning` is caught (the source's handler names
the undefined `HotWaterTank.TankWarning`; the handler is modelled as the
`except` clause is evidently intended, catching the tank-circulation
warning); any other exception is re-raised by the bare `except`. -/
def run_substeps (hp : HeatPump) (subDemand : ℚ) (schedOn : Bool) :
    ℕ → Tank → ℚ → SubstepsResult
  | 0, s, acc => .ok s acc
  | k + 1, s, acc =>
    match sim_substep hp schedOn subDemand s with
    | .error .warning => .warned acc
    | .error _ => .failed
    | .ok (s', e) => run_substeps hp subDemand schedOn k s' (acc + e)

/-- The per-hour increment of `total_elec_imported` in
`Simulator.run_simulation` (lines 137-143): with a positive surplus only the
shortfall is imported; with no surplus all used electricity is imported. -/
def imported_delta (elec surplus : ℚ) : ℚ :=
  if surplus > 0 then (if surplus < elec then elec - surplus else 0) else elec

/-- The hour loop of `Simulator.run_simulation`: each hour sets the ambient
temperature, runs the sub-steps, accumulates `total_elec_in` and
`total_elec_imported` and checks the comfort condition; a caught
`TankWarning` returns `elec_this_timestep` (the current hour's electricity
only) together with the imported total and the failing index. -/
def run_sim (hp : HeatPump) (minT : ℚ) (mult : ℕ) :
    List SimHour → ℕ → Tank → ℚ → ℚ → Except TankExc (ℚ × ℚ × Option ℕ)
  | [], _, _, totIn, totImp => .ok (totIn, totImp, none)
  | h :: rest, idx, s, totIn, totImp =>
    let hp' := { hp with T_amb := h.temperature }
    let s' := { s with T_amb := h.temperature }
    match run_substeps hp' (h.demand / (mult : ℚ)) h.schedule mult s' 0 with
    | .failed => .error .err
    | .warned e => .ok (e, totImp, some idx)
    | .ok s2 e =>
      let totIn' := totIn + e
      let totImp' := totImp + imported_delta e h.surplus
      if get_outflow_temp s2 < minT then .ok (totIn', totImp', some idx)
      else run_sim hp minT mult rest (idx + 1) s2 totIn' totImp'

/-- Embedding of `Simulator.run_simulation`: the tank and heat-pump timesteps are set to
`1 / tank_timestep_multiple` and the hour loop is run from the copied tank
state with zeroed energy accumulators. -/
def run_simulation (hp : HeatPump) (minT : ℚ) (mult : ℕ) (hours : List SimHour)
    (tank : Tank) : Except TankExc (ℚ × ℚ × Option ℕ) :=
  run_sim { hp with timestep := 1 / (mult : ℚ) } minT mult hours 0
    { tank with timestep := 1 / (mult : ℚ) } 0 0

/-- The eligible hours of `Scheduler._add_hour`: its
`truncate(after=failure_time)` keeps the hours up to and including the
failure time, and the `isin(on_hours)` filter drops the already-scheduled
ones.  Hours are identified with their position in the surplus series. -/
def eligible_hours (surplus : List ℚ) (sched : List Bool) (f : ℕ) : List ℕ :=
  (List.range surplus.length).filter fun h => decide (h ≤ f) && !(sched.getD h false)

/-- The hour `_add_hour` takes from the descending `sort_values` order: an
hour of maximal surplus.  pandas' default quicksort is unstable, so among
equal surpluses the chosen hour is unspecified; this embedding fixes the
earliest maximiser. -/
def pick_best (surplus : List ℚ) : List ℕ → Option ℕ
  | [] => none
  | h :: rest =>
    match pick_best surplus rest with
    | none => some h
    | some b => if surplus.getD b 0 > surplus.getD h 0 then some b else some h

/-- Embedding of `Scheduler._add_hour`: pick the highest-surplus not-yet-scheduled hour at
or before the failure time, turn it on, and return it; `none` when no hour is
left (the source returns `False`). -/
def add_hour (surplus : List ℚ) (sched : List Bool) (f : ℕ) :
    Option (ℕ × List Bool) :=
  match pick_best surplus (eligible_hours surplus sched f) with
  | none => none
  | some h => some (h, sched.set h true)

/-- Number of active (`== 1`) hours of a schedule. -/
def count_on (sched : List Bool) : ℕ := sched.count true

/-- Number of inactive hours of a schedule. -/
def count_off (sched : List Bool) : ℕ := sched.count false

/-- The planning loop of `Scheduler.run_model` (step 4 onwards): simulate the
candidate schedule (the Evaluator abstracted as the oracle `sim`, returning
the failure index or `none` on success), and on failure add the best hour
before retrying; the loop ends when the simulation succeeds or no hour is
left to add.  The result carries the final schedule and the number of
add-hour steps taken; `none` is the out-of-fuel case. -/
def sched_loop (sim : List Bool → Option ℕ) (surplus : List ℚ) :
    ℕ → List Bool → Option (List Bool × ℕ)
  | 0, _ => none
  | fuel + 1, sched =>
    match sim sched with
    | none => some (sched, 0)
    | some f =>
      match add_hour surplus sched f with
      | none => some (sched, 0)
      | some (_, sched') =>
        (sched_loop sim surplus fuel sched').map fun p => (p.1, p.2 + 1)

/-- Modelled from the spec's words, for the refinement comparison of claim
C1 only: "the lowest node whose temperature is ≥ T". -/
def spec_lowest_node_at_least (temps : List ℚ) (T_in : ℚ) : Option ℕ :=
  ((List.range temps.length).filter fun i => decide (T_in ≤ temps.getD i 0)).head?

instance {ε α : Type} [DecidableEq ε] [DecidableEq α] : DecidableEq (Except ε α) :=
  fun x y =>
    match x, y with
    | .error a, .error b =>
      if h : a = b then isTrue (by rw [h])
      else isFalse (fun hc => h (by injection hc))
    | .ok a, .ok b =>
      if h : a = b then isTrue (by rw [h])
      else isFalse (fun hc => h (by injection hc))
    | .error _, .ok _ => isFalse (fun hc => Except.noConfusion hc)
    | .ok _, .error _ => isFalse (fun hc => Except.noConfusion hc)

/-- One external tank interaction within a timestep, for stating properties
of call sequences (claim C6). -/
inductive TankOp where
  | draw (Q : ℚ)
  | inject (m T : ℚ)
deriving DecidableEq, Repr

/-- The non-negative-mass side condition of claim C6's amendment. -/
def op_ok : TankOp → Bool
  | .draw Q => decide (0 ≤ Q)
  | .inject m _ => decide (0 ≤ m)

/-- Run one tank interaction, keeping only the state. -/
def apply_op (s : Tank) : TankOp → Except TankExc Tank
  | .draw Q =>
    match draw_load s Q with
    | .error e => .error e
    | .ok (s', _) => .ok s'
  | .inject m T =>
    match inject_heat s m T with
    | .error e => .error e
    | .ok (s', _) => .ok s'

/-- Run a sequence of tank interactions within one timestep. -/
def apply_ops : Tank → List TankOp → Except TankExc Tank
  | s, [] => .ok s
  | s, op :: rest =>
    match apply_op s op with
    | .error e => .error e
    | .ok s' => apply_ops s' rest

/-! ### Concrete states used by witnesses and counterexamples -/

/-- A three-node tank with simplified working-fluid constants (specific heat
1, no conduction, adiabatic walls - all overridable characteristics of the
source model), all nodes at 20 degrees. -/
def tank0sim : Tank :=
  { nodes := 3, node_mass := 200, outflow_node := 2, heater_draw_node := 0,
    fluid_specific_heat := 1, fluid_conductance := 0, wall_U_value := 0,
    node_temps := [20, 20, 20], input_masses := [0, 0, 0],
    input_temps := [0, 0, 0], output_masses := [0, 0, 0] }

/-- A heat pump matched to `tank0sim`'s working fluid. -/
def hp0sim : HeatPump := { fluid_specific_heat := 1 }

/-- Hour 0 of the C4 failing input: heating scheduled, no demand, large
surplus. -/
def h0sim : SimHour :=
  { temperature := 10, demand := 0, schedule := true, surplus := 100 }

/-- Hour 1 of the C4 failing input: a demand so large that serving it
recirculates the entire tank, raising the tank-circulation warning. -/
def h1sim : SimHour :=
  { temperature := 10, demand := 1000, schedule := false, surplus := 0 }

/-- A faultless hour with a negative predicted surplus (claim C5). -/
def hC5 : SimHour :=
  { temperature := 10, demand := 0, schedule := false, surplus := -1 }

/-- A tank colder at the outflow than the load return temperature, with the
source's default water constants (claim C6). -/
def sCold : Tank :=
  { nodes := 3, node_mass := 200, outflow_node := 2, heater_draw_node := 0,
    node_temps := [10, 10, 10], input_masses := [0, 0, 0],
    input_temps := [0, 0, 0], output_masses := [0, 0, 0] }

/-- The state `draw_load sCold 1` produces: a negative mass is queued at the
outflow node and nothing is reinjected. -/
def sColdAfter : Tank :=
  { sCold with output_masses := [0, 0, -250000 / 2861] }

/-- A warm tank (all nodes at the supply temperature) with the source's
default water constants. -/
def sWarm : Tank :=
  { nodes := 3, node_mass := 200, outflow_node := 2, heater_draw_node := 0,
    node_temps := [50, 50, 50], input_masses := [0, 0, 0],
    input_temps := [0, 0, 0], output_masses := [0, 0, 0] }

/-- The state `draw_load sWarm 1` produces. -/
def sWarmAfter : Tank :=
  { sWarm with input_masses := [250000 / 8583, 0, 0], input_temps := [20, 0, 0],
               output_masses := [0, 0, 250000 / 8583] }

/-- A state whose pending outflows exceed the pending inflows by 1 kg
(claim C3): the accumulated upflow at the top node is -1. -/
def sNeg3 : Tank :=
  { nodes := 3, node_mass := 200, outflow_node := 2, heater_draw_node := 0,
    fluid_specific_heat := 1, fluid_conductance := 0, wall_U_value := 0,
    node_temps := [20, 20, 20], input_masses := [0, 0, 0],
    input_temps := [0, 0, 0], output_masses := [1, 0, 0] }

/-- An Evaluator oracle that immediately reports success (claim C7's
witness). -/
def simNone : List Bool → Option ℕ := fun _ => none

/-- The tank state after the faultless `hC5` hour (solved temperatures are
unchanged for a tank with no flows, no conduction and adiabatic walls). -/
def sC5after : Tank := { tank0sim with timestep := 1, T_amb := 10 }



/-! ### Helper lemmas -/

theorem sum_set_getD (l : List ℚ) :
    ∀ (j : ℕ) (a : ℚ), j < l.length → (l.set j a).sum = l.sum + a - l.getD j 0 := by
  induction l with
  | nil => intro j a h; simp at h
  | cons x xs ih =>
    intro j a h
    cases j with
    | zero => simp [List.set]; ring
    | succ n =>
      simp only [List.set, List.sum_cons, List.getD_cons_succ]
      rw [ih n a (by simpa using h)]
      ring

theorem getD_set_true (l : List Bool) :
    ∀ j i, l.getD i false = true → (l.set j true).getD i false = true := by
  induction l with
  | nil => intro j i h; simp [List.getD] at h
  | cons x xs ih =>
    intro j i h
    cases j with
    | zero =>
      cases i with
      | zero => simp [List.set]
      | succ m => simpa [List.set, List.getD_cons_succ] using h
    | succ n =>
      cases i with
      | zero => simpa [List.set] using h
      | succ m =>
        simp only [List.set, List.getD_cons_succ] at h ⊢
        exact ih n m h

theorem count_set_true (l : List Bool) :
    ∀ j, j < l.length → l.getD j false = false →
      (l.set j true).count true = l.count true + 1 ∧
        (l.set j true).count false + 1 = l.count false := by
  induction l with
  | nil => intro j h; simp at h
  | cons x xs ih =>
    intro j hj hx
    cases j with
    | zero =>
      simp only [List.getD_cons_zero] at hx
      subst hx
      simp [List.set, List.count_cons]
    | succ n =>
      have hn : n < xs.length := by simpa using hj
      have hxn : xs.getD n false = false := by simpa [List.getD_cons_succ] using hx
      obtain ⟨h1, h2⟩ := ih n hn hxn
      constructor
      · simp [List.set, List.count_cons, h1]
        omega
      · simp [List.set, List.count_cons] at h2 ⊢
        omega

theorem sum_take_succ_getD (l : List ℚ) :
    ∀ k, k < l.length → (l.take (k + 1)).sum = (l.take k).sum + l.getD k 0 := by
  induction l with
  | nil => intro k h; simp at h
  | cons x xs ih =>
    intro k hk
    cases k with
    | zero => simp
    | succ n =>
      simp only [List.take, List.sum_cons, List.getD_cons_succ]
      rw [ih n (by simpa using hk)]
      ring

theorem mass_upflow_take (inM outM : List ℚ) :
    ∀ k, k ≤ inM.length → k ≤ outM.length →
      mass_upflow inM outM k = (inM.take k).sum - (outM.take k).sum := by
  intro k
  induction k with
  | zero => intro _ _; simp [mass_upflow]
  | succ n ih =>
    intro h1 h2
    rw [mass_upflow, ih (by omega) (by omega),
      sum_take_succ_getD inM n (by omega), sum_take_succ_getD outM n (by omega)]
    ring

theorem mass_upflow_sum (inM outM : List ℚ) (n : ℕ)
    (h1 : inM.length = n) (h2 : outM.length = n) :
    mass_upflow inM outM n = inM.sum - outM.sum := by
  have := mass_upflow_take inM outM n (by omega) (by omega)
  rwa [← h1, List.take_length, h1, ← h2, List.take_length, h2] at this

theorem reinjectTarget_lt (nodes : ℕ) (temps : List ℚ) (T_in : ℚ)
    (h : 0 < nodes) : reinjectTarget nodes temps T_in < nodes := by
  unfold reinjectTarget
  split <;> omega

theorem reinjectLoop_ok (nm T_in : ℚ) (nodes target : ℕ) :
    ∀ (fuel j : ℕ) (rem : ℚ) (inM inT inM' inT' : List ℚ),
      j < nodes → inM.length = nodes → inT.length = nodes →
      reinjectLoop nm T_in nodes target fuel j rem inM inT = .ok (inM', inT') →
      inM'.length = nodes ∧ inT'.length = nodes ∧ inM'.sum = inM.sum + max rem 0 := by
  intro fuel
  induction fuel with
  | zero =>
    intro j rem inM inT inM' inT' hj hlM hlT h
    rw [reinjectLoop] at h
    split at h
    · rename_i hr
      simp only [Except.ok.injEq, Prod.mk.injEq] at h
      obtain ⟨rfl, rfl⟩ := h
      exact ⟨hlM, hlT, by simp [max_eq_right hr]⟩
    · simp at h
  | succ f ih =>
    intro j rem inM inT inM' inT' hj hlM hlT h
    rw [reinjectLoop] at h
    split at h
    · rename_i hr
      simp only [Except.ok.injEq, Prod.mk.injEq] at h
      obtain ⟨rfl, rfl⟩ := h
      exact ⟨hlM, hlT, by simp [max_eq_right hr]⟩
    · rename_i hr
      have hrpos : 0 < rem := lt_of_not_le hr
      simp only [] at h
      split at h
      · -- the node cannot absorb everything this iteration: take nm - cur
        rename_i hfull
        have hsum2 : (inM.set j (inM.getD j 0 + (nm - inM.getD j 0))).sum
            = inM.sum + (nm - inM.getD j 0) := by
          rw [sum_set_getD inM j _ (by omega)]; ring
        have hlen2 : (inM.set j (inM.getD j 0 + (nm - inM.getD j 0))).length = nodes := by
          rw [List.length_set]; exact hlM
        have hlenT2 : (inT.set j (mix_temps (inT.getD j 0) (inM.getD j 0) T_in
            (nm - inM.getD j 0))).length = nodes := by
          rw [List.length_set]; exact hlT
        split at h
        · -- remaining mass left over: the pointer moves
          rename_i hleft
          split at h
          · rename_i hmv
            obtain ⟨h1, h2, h3⟩ := ih (j - 1) _ _ _ _ _ (by omega) hlen2 hlenT2 h
            refine ⟨h1, h2, ?_⟩
            rw [h3, hsum2, max_eq_left (le_of_lt hleft), max_eq_left (le_of_lt hrpos)]
            ring
          · split at h
            · rename_i hmv
              obtain ⟨h1, h2, h3⟩ := ih (target + 1) _ _ _ _ _ (by omega) hlen2 hlenT2 h
              refine ⟨h1, h2, ?_⟩
              rw [h3, hsum2, max_eq_left (le_of_lt hleft), max_eq_left (le_of_lt hrpos)]
              ring
            · split at h
              · rename_i hmv
                obtain ⟨h1, h2, h3⟩ := ih (j + 1) _ _ _ _ _ (by omega) hlen2 hlenT2 h
                refine ⟨h1, h2, ?_⟩
                rw [h3, hsum2, max_eq_left (le_of_lt hleft), max_eq_left (le_of_lt hrpos)]
                ring
              · simp at h
        · -- impossible: the partial take always leaves remaining mass
          rename_i hnoleft
          exfalso
          have : nm - inM.getD j 0 < rem := by linarith
          exact hnoleft (by linarith)
      · -- the node absorbs the whole remaining mass: take rem, remaining2 = 0
        rename_i hpart
        have hsum2 : (inM.set j (inM.getD j 0 + rem)).sum = inM.sum + rem := by
          rw [sum_set_getD inM j _ (by omega)]; ring
        have hlen2 : (inM.set j (inM.getD j 0 + rem)).length = nodes := by
          rw [List.length_set]; exact hlM
        have hlenT2 : (inT.set j (mix_temps (inT.getD j 0) (inM.getD j 0) T_in
            rem)).length = nodes := by
          rw [List.length_set]; exact hlT
        split at h
        · rename_i habs; simp at habs
        · obtain ⟨h1, h2, h3⟩ := ih j _ _ _ _ _ hj hlen2 hlenT2 h
          refine ⟨h1, h2, ?_⟩
          rw [h3, hsum2, max_eq_left (le_of_lt hrpos)]
          simp

theorem reinject_ok (s : Tank) (T m : ℚ) (s' : Tank)
    (h0 : 0 < s.nodes) (hlM : s.input_masses.length = s.nodes)
    (hlT : s.input_temps.length = s.nodes)
    (h : reinject s T m = .ok s') :
    ∃ a b, s' = { s with input_masses := a, input_temps := b } ∧
      a.length = s.nodes ∧ b.length = s.nodes ∧
      a.sum = s.input_masses.sum + max m 0 := by
  unfold reinject at h
  simp only [] at h
  cases hres : reinjectLoop s.node_mass T s.nodes
      (reinjectTarget s.nodes s.node_temps T) (s.nodes + 1)
      (reinjectTarget s.nodes s.node_temps T) m s.input_masses s.input_temps with
  | error e => rw [hres] at h; simp at h
  | ok p =>
    obtain ⟨a, b⟩ := p
    rw [hres] at h
    simp only [Except.ok.injEq] at h
    obtain ⟨h1, h2, h3⟩ := reinjectLoop_ok s.node_mass T s.nodes
      (reinjectTarget s.nodes s.node_temps T) (s.nodes + 1)
      (reinjectTarget s.nodes s.node_temps T) m s.input_masses s.input_temps a b
      (reinjectTarget_lt s.nodes s.node_temps T h0) hlM hlT hres
    exact ⟨a, b, h.symm, h1, h2, h3⟩

theorem inject_heat_balance (s : Tank) (m T : ℚ) (s' : Tank) (q : ℚ)
    (h0 : 0 < s.nodes) (hlM : s.input_masses.length = s.nodes)
    (hlT : s.input_temps.length = s.nodes) (hlO : s.output_masses.length = s.nodes)
    (hheat : s.heater_draw_node < s.nodes) (hm : 0 ≤ m)
    (h : inject_heat s m T = .ok (s', q)) :
    ∃ a b c, s' = { s with input_masses := a, input_temps := b, output_masses := c } ∧
      a.length = s.nodes ∧ b.length = s.nodes ∧ c.length = s.nodes ∧
      a.sum - s.input_masses.sum = c.sum - s.output_masses.sum := by
  unfold inject_heat at h
  split at h
  · simp only [Except.ok.injEq, Prod.mk.injEq] at h
    obtain ⟨rfl, rfl⟩ := h
    exact ⟨s.input_masses, s.input_temps, s.output_masses, rfl, hlM, hlT, hlO, by ring⟩
  · simp only [] at h
    cases hres : reinject { s with output_masses := s.output_masses.set s.heater_draw_node (s.output_masses.getD s.heater_draw_node 0 + m) } T m with
    | error e => rw [hres] at h; simp at h
    | ok s2 =>
      rw [hres] at h
      simp only [Except.ok.injEq, Prod.mk.injEq] at h
      obtain ⟨rfl, rfl⟩ := h
      obtain ⟨a, b, hs2, ha, hb, hsum⟩ := reinject_ok { s with output_masses := s.output_masses.set s.heater_draw_node (s.output_masses.getD s.heater_draw_node 0 + m) } T m s2 h0 hlM hlT hres
      refine ⟨a, b, s.output_masses.set s.heater_draw_node (s.output_masses.getD s.heater_draw_node 0 + m), hs2, ha, hb, ?_, ?_⟩
      · rw [List.length_set]; exact hlO
      · rw [hsum, max_eq_left hm, sum_set_getD _ _ _ (by omega)]
        ring

theorem draw_load_balance (s : Tank) (Q : ℚ) (s' : Tank) (r : Option ℚ)
    (h0 : 0 < s.nodes) (hlM : s.input_masses.length = s.nodes)
    (hlT : s.input_temps.length = s.nodes) (hlO : s.output_masses.length = s.nodes)
    (houtn : s.outflow_node < s.nodes) (hc : 0 < s.fluid_specific_heat)
    (hrs : s.load_return_temp < s.load_supply_temp)
    (hQ : 0 ≤ Q) (hout : s.load_return_temp < get_outflow_temp s)
    (h : draw_load s Q = .ok (s', r)) :
    ∃ a b c, s' = { s with input_masses := a, input_temps := b, output_masses := c } ∧
      a.length = s.nodes ∧ b.length = s.nodes ∧ c.length = s.nodes ∧
      a.sum - s.input_masses.sum = c.sum - s.output_masses.sum := by
  have htd : 0 < get_outflow_temp s - s.load_return_temp := by linarith
  unfold draw_load at h
  split at h
  · simp only [Except.ok.injEq, Prod.mk.injEq] at h
    obtain ⟨rfl, rfl⟩ := h
    exact ⟨s.input_masses, s.input_temps, s.output_masses, rfl, hlM, hlT, hlO, by ring⟩
  · simp only [] at h
    -- the mass computation succeeds with a non-negative mass in both branches
    have hmass : ∃ mass : ℚ, 0 ≤ mass ∧
        (if get_outflow_temp s > s.load_supply_temp then
          if (s.load_supply_temp - s.load_return_temp) * s.fluid_specific_heat = 0 then (Except.error TankExc.err : Except TankExc ℚ)
          else if get_outflow_temp s - s.load_return_temp = 0 then .error .err
          else .ok (Q / ((s.load_supply_temp - s.load_return_temp) * s.fluid_specific_heat) * (s.load_supply_temp - s.load_return_temp) / (get_outflow_temp s - s.load_return_temp))
        else
          if (get_outflow_temp s - s.load_return_temp) * s.fluid_specific_heat = 0 then .error .err
          else .ok (Q / ((get_outflow_temp s - s.load_return_temp) * s.fluid_specific_heat))) = .ok mass := by
      split
      · rename_i hsup
        have hdt : 0 < s.load_supply_temp - s.load_return_temp := by linarith
        rw [if_neg (by positivity), if_neg (by linarith)]
        exact ⟨_, by positivity, rfl⟩
      · rw [if_neg (by positivity)]
        exact ⟨_, by positivity, rfl⟩
    obtain ⟨mass, hmnn, hmeq⟩ := hmass
    rw [hmeq] at h
    simp only [] at h
    cases hres : reinject s s.load_return_temp mass with
    | error e => rw [hres] at h; simp at h
    | ok s1 =>
      rw [hres] at h
      simp only [Except.ok.injEq, Prod.mk.injEq] at h
      obtain ⟨rfl, rfl⟩ := h
      obtain ⟨a, b, hs1, ha, hb, hsum⟩ := reinject_ok _ _ _ _ h0 hlM hlT hres
      subst hs1
      refine ⟨a, b, s.output_masses.set s.outflow_node (s.output_masses.getD s.outflow_node 0 + mass), rfl, ha, hb, ?_, ?_⟩
      · rw [List.length_set]; exact hlO
      · rw [hsum, max_eq_left hmnn, sum_set_getD _ _ _ (by omega)]
        ring

theorem apply_op_balance (s : Tank) (op : TankOp) (s' : Tank)
    (hwf : TankWF s) (hout : s.load_return_temp < get_outflow_temp s)
    (hop : op_ok op = true) (h : apply_op s op = .ok s') :
    TankWF s' ∧ s'.node_temps = s.node_temps ∧ s'.outflow_node = s.outflow_node ∧
      s'.load_return_temp = s.load_return_temp ∧
      s'.input_masses.sum - s.input_masses.sum
        = s'.output_masses.sum - s.output_masses.sum := by
  obtain ⟨h0, hT, hM, hTe, hO, hon, hhn, hcp, hrs⟩ := hwf
  cases op with
  | draw Q =>
    simp only [op_ok, decide_eq_true_eq] at hop
    unfold apply_op at h
    simp only [] at h
    cases hres : draw_load s Q with
    | error e => rw [hres] at h; simp at h
    | ok p =>
      obtain ⟨s1, r⟩ := p
      rw [hres] at h
      simp only [Except.ok.injEq] at h
      subst h
      obtain ⟨a, b, c, hshape, ha, hb, hc, hsum⟩ :=
        draw_load_balance s Q s1 r h0 hM hTe hO hon hcp hrs hop hout hres
      subst hshape
      exact ⟨⟨h0, hT, ha, hb, hc, hon, hhn, hcp, hrs⟩, rfl, rfl, rfl, hsum⟩
  | inject m T =>
    simp only [op_ok, decide_eq_true_eq] at hop
    unfold apply_op at h
    simp only [] at h
    cases hres : inject_heat s m T with
    | error e => rw [hres] at h; simp at h
    | ok p =>
      obtain ⟨s1, q⟩ := p
      rw [hres] at h
      simp only [Except.ok.injEq] at h
      subst h
      obtain ⟨a, b, c, hshape, ha, hb, hc, hsum⟩ :=
        inject_heat_balance s m T s1 q h0 hM hTe hO hhn hop hres
      subst hshape
      exact ⟨⟨h0, hT, ha, hb, hc, hon, hhn, hcp, hrs⟩, rfl, rfl, rfl, hsum⟩

theorem apply_ops_balance :
    ∀ (ops : List TankOp) (s s' : Tank), TankWF s →
      s.load_return_temp < get_outflow_temp s → ops.all op_ok = true →
      apply_ops s ops = .ok s' →
      TankWF s' ∧ s'.node_temps = s.node_temps ∧ s'.outflow_node = s.outflow_node ∧
        s'.load_return_temp = s.load_return_temp ∧
        s'.input_masses.sum - s.input_masses.sum
          = s'.output_masses.sum - s.output_masses.sum := by
  intro ops
  induction ops with
  | nil =>
    intro s s' hwf _ _ h
    simp only [apply_ops, Except.ok.injEq] at h
    subst h
    exact ⟨hwf, rfl, rfl, rfl, by ring⟩
  | cons op rest ih =>
    intro s s' hwf hout hall h
    simp only [List.all_cons, Bool.and_eq_true] at hall
    obtain ⟨hop, hrest⟩ := hall
    unfold apply_ops at h
    cases hres : apply_op s op with
    | error e => rw [hres] at h; simp at h
    | ok s1 =>
      rw [hres] at h
      obtain ⟨hwf1, hTeq, hOeq, hReq, hSum⟩ := apply_op_balance s op s1 hwf hout hop hres
      have hout1 : s1.load_return_temp < get_outflow_temp s1 := by
        unfold get_outflow_temp
        rw [hTeq, hOeq, hReq]
        exact hout
      obtain ⟨hwf2, hTeq2, hOeq2, hReq2, hSum2⟩ := ih s1 s' hwf1 hout1 hrest h
      refine ⟨hwf2, hTeq2.trans hTeq, hOeq2.trans hOeq, hReq2.trans hReq, ?_⟩
      have := hSum
      have := hSum2
      linarith

theorem pick_best_mem (surplus : List ℚ) :
    ∀ (l : List ℕ) (h : ℕ), pick_best surplus l = some h → h ∈ l := by
  intro l
  induction l with
  | nil => intro h hh; simp [pick_best] at hh
  | cons a rest ih =>
    intro h hh
    rw [pick_best] at hh
    cases hb : pick_best surplus rest with
    | none => rw [hb] at hh; simp at hh; simp [hh]
    | some b =>
      rw [hb] at hh
      simp only [] at hh
      split at hh
      · simp at hh; subst hh; exact List.mem_cons_of_mem _ (ih b hb)
      · simp at hh; simp [hh]

theorem pick_best_le (surplus : List ℚ) :
    ∀ (l : List ℕ) (h : ℕ), pick_best surplus l = some h →
      ∀ x ∈ l, surplus.getD x 0 ≤ surplus.getD h 0 := by
  intro l
  induction l with
  | nil => intro h hh; simp [pick_best] at hh
  | cons a rest ih =>
    intro h hh x hx
    rw [pick_best] at hh
    cases hb : pick_best surplus rest with
    | none =>
      rw [hb] at hh; simp at hh; subst hh
      -- an empty pick means the rest is empty
      cases rest with
      | nil => simp at hx; subst hx; exact le_refl _
      | cons c cs =>
        rw [pick_best] at hb
        cases hz : pick_best surplus cs with
        | none => rw [hz] at hb; simp at hb
        | some d => rw [hz] at hb; simp only [] at hb; split at hb <;> simp at hb
    | some b =>
      rw [hb] at hh
      simp only [] at hh
      rcases List.mem_cons.mp hx with rfl | hxr
      · split at hh
        · rename_i hgt; simp at hh; subst hh; exact le_of_lt hgt
        · simp at hh; subst hh; exact le_refl _
      · have hxb := ih b hb x hxr
        split at hh
        · simp at hh; subst hh; exact hxb
        · rename_i hngt
          simp at hh; subst hh
          push_neg at hngt
          exact hxb.trans hngt

theorem add_hour_spec (surplus : List ℚ) (sched : List Bool) (f h : ℕ)
    (sched' : List Bool) (hadd : add_hour surplus sched f = some (h, sched')) :
    h < surplus.length ∧ h ≤ f ∧ sched.getD h false = false ∧
      (∀ x, x < surplus.length → x ≤ f → sched.getD x false = false →
        surplus.getD x 0 ≤ surplus.getD h 0) ∧
      sched' = sched.set h true := by
  unfold add_hour at hadd
  cases hp : pick_best surplus (eligible_hours surplus sched f) with
  | none => rw [hp] at hadd; simp at hadd
  | some b =>
    rw [hp] at hadd
    simp only [Option.some.injEq, Prod.mk.injEq] at hadd
    obtain ⟨rfl, rfl⟩ := hadd
    have hmem := pick_best_mem surplus _ _ hp
    unfold eligible_hours at hmem
    rw [List.mem_filter, List.mem_range] at hmem
    obtain ⟨hlt, hcond⟩ := hmem
    simp only [Bool.and_eq_true, decide_eq_true_eq, Bool.not_eq_true'] at hcond
    refine ⟨hlt, hcond.1, hcond.2, ?_, rfl⟩
    intro x hx1 hx2 hx3
    refine pick_best_le surplus _ _ hp x ?_
    unfold eligible_hours
    rw [List.mem_filter, List.mem_range]
    refine ⟨hx1, ?_⟩
    simp only [Bool.and_eq_true, decide_eq_true_eq, Bool.not_eq_true']
    exact ⟨hx2, hx3⟩

theorem add_hour_count (surplus : List ℚ) (sched : List Bool) (f h : ℕ)
    (sched' : List Bool) (hlen : sched.length = surplus.length)
    (hadd : add_hour surplus sched f = some (h, sched')) :
    count_on sched' = count_on sched + 1 ∧ count_off sched' + 1 = count_off sched ∧
      sched'.length = sched.length ∧
      (∀ i, sched.getD i false = true → sched'.getD i false = true) := by
  obtain ⟨hlt, _, hoff, _, rfl⟩ := add_hour_spec surplus sched f h sched' hadd
  have hlth : h < sched.length := by omega
  obtain ⟨hc1, hc2⟩ := count_set_true sched h hlth hoff
  exact ⟨hc1, hc2, List.length_set sched h true, fun i hi => getD_set_true sched h i hi⟩

theorem sched_loop_total (sim : List Bool → Option ℕ) (surplus : List ℚ) :
    ∀ (fuel : ℕ) (sched : List Bool), sched.length = surplus.length →
      count_off sched < fuel →
      ∃ fin k, sched_loop sim surplus fuel sched = some (fin, k) ∧
        k ≤ count_off sched ∧ count_on sched ≤ count_on fin := by
  intro fuel
  induction fuel with
  | zero => intro sched _ hf; omega
  | succ f ih =>
    intro sched hlen hf
    cases hs : sim sched with
    | none =>
      refine ⟨sched, 0, ?_, by omega, le_refl _⟩
      simp only [sched_loop, hs]
    | some t =>
      cases ha : add_hour surplus sched t with
      | none =>
        refine ⟨sched, 0, ?_, by omega, le_refl _⟩
        simp only [sched_loop, hs, ha]
      | some p =>
        obtain ⟨h, sched'⟩ := p
        obtain ⟨hc1, hc2, hl, _⟩ := add_hour_count surplus sched t h sched' hlen ha
        obtain ⟨fin, k, hloop, hk, hmono⟩ :=
          ih sched' (hl.trans hlen) (by omega)
        refine ⟨fin, k + 1, ?_, by omega, by omega⟩
        simp [sched_loop, hs, ha, hloop]

/-! ### Claim theorems -/

/-- C1 counterexample: on a tank with node temperatures `[30, 40, 50]` and
inflow at 45 degrees, the manifold rule targets the bottom node (0), while the
claimed rule - the lowest node whose temperature is at least 45 - names node
2; in particular the target is the bottom node although 45 is not colder than
every node. -/
theorem C1_counterexample :
    reinjectTarget 3 [30, 40, 50] 45 = 0 ∧
      spec_lowest_node_at_least [30, 40, 50] 45 = some 2 ∧ (0 : ℕ) ≠ 2 := by
  decide

/-- C1 (amended): for every tank state and inflow temperature, the manifold
injection target used by `draw_load` and `inject_heat` (via `_reinject`) is
the top node exactly when the inflow is at least the top node's temperature,
and otherwise always the bottom node, regardless of the intermediate node
temperatures - the scan's `for`-`else` clause always runs because the loop
contains no `break`. -/
theorem C1_reinject_target_amended (nodes : ℕ) (temps : List ℚ) (T_in : ℚ)
    (hn : 3 ≤ nodes) :
    (reinjectTarget nodes temps T_in = nodes - 1 ↔ temps.getD (nodes - 1) 0 ≤ T_in) ∧
      (reinjectTarget nodes temps T_in = 0 ↔ ¬ temps.getD (nodes - 1) 0 ≤ T_in) := by
  unfold reinjectTarget
  split
  · rename_i hc
    exact ⟨⟨fun _ => hc, fun _ => rfl⟩, ⟨fun h0 => absurd h0 (by omega), fun hnc => absurd hc hnc⟩⟩
  · rename_i hc
    exact ⟨⟨fun h0 => absurd h0.symm (by omega), fun hle => absurd hle hc⟩, ⟨fun _ => hc, fun _ => rfl⟩⟩

/-- C1 witness: the amended rule evaluated on a concrete tank. -/
theorem C1_witness :
    (reinjectTarget 3 [30, 40, 50] 100 = 2 ↔ ([30, 40, 50] : List ℚ).getD 2 0 ≤ 100) ∧
      (reinjectTarget 3 [30, 40, 50] 100 = 0 ↔ ¬ ([30, 40, 50] : List ℚ).getD 2 0 ≤ 100) :=
  C1_reinject_target_amended 3 [30, 40, 50] 100 (by decide)

/-- C2 counterexample: with surpluses `[0, 5]`, an empty schedule and a
failure at hour 1, `_add_hour` selects hour 1 itself (its `truncate` keeps the
failure hour), which is not strictly before the failure time. -/
theorem C2_counterexample :
    add_hour [0, 5] [false, false] 1 = some (1, [false, true]) ∧ ¬ (1 : ℕ) < 1 := by
  decide

/-- C2 (amended): whenever the add-hour step selects an hour, that hour is at
or before the failure time (inclusive), was not yet scheduled, carries the
greatest predicted surplus among all such hours, and exactly that one hour is
turned on. -/
theorem C2_add_hour_amended (surplus : List ℚ) (sched : List Bool) (f h : ℕ)
    (sched' : List Bool) (hadd : add_hour surplus sched f = some (h, sched')) :
    h < surplus.length ∧ h ≤ f ∧ sched.getD h false = false ∧
      (∀ x, x < surplus.length → x ≤ f → sched.getD x false = false →
        surplus.getD x 0 ≤ surplus.getD h 0) ∧
      sched' = sched.set h true :=
  add_hour_spec surplus sched f h sched' hadd

/-- C2 witness: the amended selection property at a concrete input. -/
theorem C2_witness :
    (1 : ℕ) ≤ 1 ∧ ([false, false] : List Bool).getD 1 false = false ∧
      ([0, 5] : List ℚ).getD 0 0 ≤ ([0, 5] : List ℚ).getD 1 0 ∧
      ([false, false] : List Bool).set 1 true = [false, true] := by
  obtain ⟨h1, h2, h3, h4, h5⟩ :=
    C2_add_hour_amended [0, 5] [false, false] 1 1 [false, true] (by decide)
  exact ⟨h2, h3, h4 0 (by decide) (by decide) (by decide), h5.symm⟩

/-- C3 counterexample: a state whose outflows exceed the inflows by 1 kg (net
upflow -1, far beyond the tolerance in the negative direction) does not
abort: `process_timestep` solves and produces new temperatures. -/
theorem C3_counterexample :
    (process_timestep sNeg3).isOk = true ∧
      mass_upflow sNeg3.input_masses sNeg3.output_masses sNeg3.nodes < -(1 / 10000) := by
  decide

/-- C3 (amended): `process_timestep` raises the fatal mass-imbalance error
exactly when the accumulated vertical flow leaving the top node exceeds the
0.0001 tolerance in the positive direction; a negative imbalance is not
detected and the solve proceeds. -/
theorem C3_mass_imbalance_amended (s : Tank) :
    process_timestep s = .error .massImbalance ↔
      mass_upflow s.input_masses s.output_masses s.nodes > 1 / 10000 := by
  unfold process_timestep
  split
  · rename_i hc
    exact ⟨fun _ => hc, fun _ => rfl⟩
  · rename_i hc
    constructor
    · intro h
      exfalso
      revert h
      cases tank_solve s <;> simp
    · intro h
      exact absurd h hc

/-- C4: evaluating the Evaluator on a concrete two-hour input whose second
hour raises the tank-circulation warning.  Hour 0 completes and consumes
875000000/154810067 kWh (≈ 5.65, visible in the one-hour run); the
circulation fault in hour 1 then makes `run_simulation` return 0 kWh - the
current hour's `elec_this_timestep` - instead of the electricity accumulated
over the whole run, together with the accumulated import and the failing
hour. -/
theorem C4_circulation_return :
    (run_simulation hp0sim 15 1 [h0sim, h1sim] tank0sim).toOption
        = some (0, 0, some 1) ∧
      (run_simulation hp0sim 15 1 [h0sim] tank0sim).toOption
        = some (875000000 / 154810067, 0, none) ∧
      (875000000 / 154810067 : ℚ) ≠ 0 := by
  decide

/-- C5 counterexample: an hour with no electricity use and surplus -1
completes without fault; the Evaluator imports 0 for it, while the claimed
formula `max (0, used - surplus)` gives 1. -/
theorem C5_counterexample :
    (run_simulation hp0sim 15 1 [hC5] tank0sim).toOption = some (0, 0, none) ∧
      max (0 : ℚ) (0 - hC5.surplus) = 1 ∧ (1 : ℚ) ≠ 0 := by
  decide

/-- C5 (amended): for every faultless hour the Evaluator's imported total
increases by `imported_delta`, which equals `max (0, used - surplus)` when
the hour's surplus is positive and the whole `used` electricity when the
surplus is non-positive (a negative surplus does not inflate the import). -/
theorem C5_import_amended :
    (∀ used surplus : ℚ,
        imported_delta used surplus
          = if 0 < surplus then max 0 (used - surplus) else used) ∧
      (∀ (hp : HeatPump) (minT : ℚ) (mult : ℕ) (h : SimHour) (rest : List SimHour)
          (idx : ℕ) (s s2 : Tank) (totIn totImp e : ℚ),
        run_substeps { hp with T_amb := h.temperature } (h.demand / (mult : ℚ))
            h.schedule mult { s with T_amb := h.temperature } 0 = .ok s2 e →
        ¬ get_outflow_temp s2 < minT →
        run_sim hp minT mult (h :: rest) idx s totIn totImp
          = run_sim hp minT mult rest (idx + 1) s2 (totIn + e)
              (totImp + imported_delta e h.surplus)) := by
  constructor
  · intro used surplus
    unfold imported_delta
    split
    · rename_i hpos
      split
      · rename_i hlt
        rw [max_eq_right (by linarith : (0 : ℚ) ≤ used - surplus)]
      · rename_i hnlt
        rw [max_eq_left (by linarith : used - surplus ≤ 0)]
    · rfl
  · intro hp minT mult h rest idx s s2 totIn totImp e hsub hcomf
    simp only [run_sim]
    rw [hsub]
    simp only []
    rw [if_neg hcomf]

/-- C5 witness: the amended import rule evaluated on a concrete negative
surplus and on a concrete faultless hour. -/
theorem C5_witness :
    imported_delta 2 (-1) = (if (0 : ℚ) < -1 then max 0 (2 - -1) else 2) ∧
      run_sim { hp0sim with timestep := 1 } 15 1 [hC5] 0
          { tank0sim with timestep := 1 } 0 0
        = run_sim { hp0sim with timestep := 1 } 15 1 [] 1 sC5after (0 + 0)
            (0 + imported_delta 0 hC5.surplus) := by
  refine ⟨C5_import_amended.1 2 (-1), ?_⟩
  exact C5_import_amended.2 { hp0sim with timestep := 1 } 15 1 hC5 [] 0
    { tank0sim with timestep := 1 } sC5after 0 0 0 (by decide) (by decide)

/-- C6 counterexample: on a tank whose outflow is colder than the 20-degree
load return, the successful call `draw_load 1` queues a negative outflow mass
and reinjects nothing, so the totals differ and the subsequent
`process_timestep` raises the mass-imbalance error. -/
theorem C6_counterexample :
    (draw_load sCold 1).toOption = some (sColdAfter, some (-250000 / 2861)) ∧
      sColdAfter.input_masses.sum ≠ sColdAfter.output_masses.sum ∧
      is_mass_imbalance (process_timestep sColdAfter) = true := by
  decide

/-- C6 (amended): for a well-formed tank whose outflow is warmer than the
load return temperature, any successful sequence of `draw_load` and
`inject_heat` calls with non-negative masses changes the total pending input
and output masses by the same amount, so if the pending masses were balanced
before, the subsequent `process_timestep` does not raise the mass-imbalance
error. -/
theorem C6_mass_closure_amended (s : Tank) (ops : List TankOp) (s' : Tank)
    (hwf : TankWF s) (hout : s.load_return_temp < get_outflow_temp s)
    (hall : ops.all op_ok = true) (h : apply_ops s ops = .ok s') :
    s'.input_masses.sum - s.input_masses.sum
        = s'.output_masses.sum - s.output_masses.sum ∧
      (s.input_masses.sum = s.output_masses.sum →
        is_mass_imbalance (process_timestep s') = false) := by
  obtain ⟨hwf', _, _, _, hsum⟩ := apply_ops_balance ops s s' hwf hout hall h
  refine ⟨hsum, fun hbal => ?_⟩
  obtain ⟨h0', hT', hM', hTe', hO', _, _, _, _⟩ := hwf'
  have hup : mass_upflow s'.input_masses s'.output_masses s'.nodes
      = s'.input_masses.sum - s'.output_masses.sum := mass_upflow_sum _ _ _ hM' hO'
  have hnot : ¬ mass_upflow s'.input_masses s'.output_masses s'.nodes > 1 / 10000 := by
    rw [hup]
    intro hgt
    rw [hbal] at hsum
    have hz : s'.input_masses.sum - s'.output_masses.sum = 0 := by linarith
    rw [hz] at hgt
    norm_num at hgt
  unfold process_timestep
  rw [if_neg hnot]
  cases tank_solve s' <;> simp [is_mass_imbalance]

/-- C6 witness: a 1 kWh draw on a warm, well-formed tank keeps the totals
balanced and the subsequent timestep free of the mass-imbalance error. -/
theorem C6_witness :
    sWarmAfter.input_masses.sum - sWarm.input_masses.sum
        = sWarmAfter.output_masses.sum - sWarm.output_masses.sum ∧
      is_mass_imbalance (process_timestep sWarmAfter) = false := by
  obtain ⟨h1, h2⟩ := C6_mass_closure_amended sWarm [TankOp.draw 1] sWarmAfter
    (by decide) (by decide) (by decide) (by decide)
  exact ⟨h1, h2 (by decide)⟩

/-- C7: each successful add-hour step turns exactly one inactive hour on
(the active count increases by one and no active hour is switched off), and
the planning loop - simulation oracle, add the best hour, repeat - completes
within fuel `horizon + 1` taking at most `horizon` add-hour steps, the active
count never decreasing from start to finish. -/
theorem C7_monotone_growth :
    (∀ (surplus : List ℚ) (sched : List Bool) (f h : ℕ) (sched' : List Bool),
        sched.length = surplus.length →
        add_hour surplus sched f = some (h, sched') →
        count_on sched' = count_on sched + 1 ∧
          ∀ i, sched.getD i false = true → sched'.getD i false = true) ∧
      (∀ (sim : List Bool → Option ℕ) (surplus : List ℚ) (sched : List Bool),
        sched.length = surplus.length →
        ∃ fin k, sched_loop sim surplus (sched.length + 1) sched = some (fin, k) ∧
          k ≤ sched.length ∧ count_on sched ≤ count_on fin) := by
  constructor
  · intro surplus sched f h sched' hlen hadd
    obtain ⟨hc1, _, _, hkeep⟩ := add_hour_count surplus sched f h sched' hlen hadd
    exact ⟨hc1, hkeep⟩
  · intro sim surplus sched hlen
    have hoff : count_off sched ≤ sched.length := by
      unfold count_off
      exact List.count_le_length _ _
    obtain ⟨fin, k, hloop, hk, hmono⟩ :=
      sched_loop_total sim surplus (sched.length + 1) sched hlen (by omega)
    exact ⟨fin, k, hloop, by omega, hmono⟩

/-- C7 witness: one add-hour step on a two-hour schedule, and the loop run on
a trivially succeeding Evaluator oracle. -/
theorem C7_witness :
    count_on [false, true] = count_on [false, false] + 1 ∧
      (sched_loop simNone [1, 2] (([false, false] : List Bool).length + 1)
        [false, false]).isSome = true := by
  constructor
  · exact (C7_monotone_growth.1 [1, 2] [false, false] 1 1 [false, true]
      (by decide) (by decide)).1
  · obtain ⟨fin, k, hloop, _, _⟩ :=
      C7_monotone_growth.2 simNone [1, 2] [false, false] (by decide)
    rw [hloop]
    rfl

/-- C8: whenever the required heat exceeds `nominal_power * timestep` beyond
the 0.01 tolerance, `deliver_heat` emits the capacity warning and returns the
electrical energy computed from the clamped heat
`nominal_power * timestep / COP`, never from the unclamped value. -/
theorem C8_capacity_clamp (hp : HeatPump) (T_in mass : ℚ)
    (hcl : (hp.T_out - T_in) * mass * hp.fluid_specific_heat
        - hp.nominal_power * hp.timestep > 1 / 100) :
    (deliver_heat hp T_in mass).elec = hp.nominal_power * hp.timestep / cop hp ∧
      (deliver_heat hp T_in mass).capacityWarning = true := by
  unfold deliver_heat
  simp only []
  rw [if_pos hcl]
  exact ⟨rfl, rfl⟩

/-- C8 witness: heating 1000 kg from 0 degrees needs 68.664 kWh, far beyond
the 14 kWh capacity, so the clamp fires. -/
theorem C8_witness :
    (deliver_heat defaultHeatPump 0 1000).elec
        = defaultHeatPump.nominal_power * defaultHeatPump.timestep
            / cop defaultHeatPump ∧
      (deliver_heat defaultHeatPump 0 1000).capacityWarning = true :=
  C8_capacity_clamp defaultHeatPump 0 1000 (by decide)

/-- C9: `draw_load 0` returns immediately (Python `None`) with the tank state
unchanged, and `inject_heat` with a differential below 5 degrees over the
heater draw node returns 0 energy with the tank state unchanged; neither
queues any flow, so only a later `process_timestep` alters the state. -/
theorem C9_noop (s : Tank) (m T : ℚ) :
    draw_load s 0 = .ok (s, none) ∧
      (T - get_hp_draw_temp s < 5 → inject_heat s m T = .ok (s, 0)) := by
  constructor
  · unfold draw_load
    rw [if_pos rfl]
  · intro hlt
    unfold inject_heat
    rw [if_pos hlt]

/-- C9 witness: a zero draw and a 52-degree injection on a 50-degree tank
both leave the state untouched. -/
theorem C9_witness :
    draw_load sWarm 0 = .ok (sWarm, none) ∧ inject_heat sWarm 5 52 = .ok (sWarm, 0) := by
  obtain ⟨h1, h2⟩ := C9_noop sWarm 5 52
  exact ⟨h1, h2 (by decide)⟩

/-- C10: `heatable_mass` on the configured heat pump is total and returns a
positive mass of at most `max_flow_rate * 60 * timestep` whenever
`T_in < T_out = 60`; at `T_in = 60` the unguarded division by zero is
reachable (Python raises `ZeroDivisionError`); for `T_in > 60` the returned
mass is negative. -/
theorem C10_heatable_mass (T_in : ℚ) :
    (T_in < 60 → (heatable_mass defaultHeatPump T_in).isSome = true ∧
        0 < (heatable_mass defaultHeatPump T_in).getD 0 ∧
        (heatable_mass defaultHeatPump T_in).getD 0
          ≤ defaultHeatPump.max_flow_rate * 60 * defaultHeatPump.timestep) ∧
      (T_in = 60 → heatable_mass defaultHeatPump T_in = none) ∧
      (60 < T_in → (heatable_mass defaultHeatPump T_in).isSome = true ∧
        (heatable_mass defaultHeatPump T_in).getD 0 < 0) := by
  have hT : defaultHeatPump.T_out = 60 := rfl
  have hc : defaultHeatPump.fluid_specific_heat = 11444 / 10000000 := rfl
  have hn : defaultHeatPump.nominal_power = 14 := rfl
  have hts : defaultHeatPump.timestep = 1 := rfl
  have hmf : defaultHeatPump.max_flow_rate = 40 := rfl
  refine ⟨?_, ?_, ?_⟩
  · intro hlt
    have hd : (0 : ℚ) < 60 - T_in := by linarith
    have hne : defaultHeatPump.fluid_specific_heat * (defaultHeatPump.T_out - T_in) ≠ 0 := by
      rw [hc, hT]
      positivity
    unfold heatable_mass
    rw [if_neg hne]
    simp only []
    have hpos : 0 < defaultHeatPump.nominal_power * defaultHeatPump.timestep
        / (defaultHeatPump.fluid_specific_heat * (defaultHeatPump.T_out - T_in)) := by
      rw [hc, hT, hn, hts]
      positivity
    split
    · rename_i hgt
      refine ⟨rfl, ?_, le_refl _⟩
      rw [hmf, hts]
      norm_num
    · rename_i hngt
      push_neg at hngt
      exact ⟨rfl, by simpa using hpos, by simpa using hngt⟩
  · intro heq
    subst heq
    unfold heatable_mass
    rw [if_pos (by rw [hc, hT]; ring)]
  · intro hgt
    have hd : 60 - T_in < 0 := by linarith
    have hne : defaultHeatPump.fluid_specific_heat * (defaultHeatPump.T_out - T_in) ≠ 0 := by
      rw [hc, hT]
      exact mul_ne_zero (by norm_num) (by linarith)
    have hneg : defaultHeatPump.nominal_power * defaultHeatPump.timestep
        / (defaultHeatPump.fluid_specific_heat * (defaultHeatPump.T_out - T_in)) < 0 := by
      rw [hc, hT, hn, hts]
      apply div_neg_of_pos_of_neg
      · norm_num
      · nlinarith
    have h2400 : (0 : ℚ) < defaultHeatPump.max_flow_rate * 60 * defaultHeatPump.timestep := by
      rw [hmf, hts]
      norm_num
    have hnotgt : ¬ defaultHeatPump.nominal_power * defaultHeatPump.timestep
        / (defaultHeatPump.fluid_specific_heat * (defaultHeatPump.T_out - T_in))
          > defaultHeatPump.max_flow_rate * 60 * defaultHeatPump.timestep := by
      intro habs
      linarith
    unfold heatable_mass
    rw [if_neg hne]
    simp only []
    rw [if_neg hnotgt]
    exact ⟨rfl, by simpa using hneg⟩

/-- C10 witness: the three regimes evaluated at 30, 60 and 70 degrees. -/
theorem C10_witness :
    ((heatable_mass defaultHeatPump 30).isSome = true ∧
        0 < (heatable_mass defaultHeatPump 30).getD 0 ∧
        (heatable_mass defaultHeatPump 30).getD 0
          ≤ defaultHeatPump.max_flow_rate * 60 * defaultHeatPump.timestep) ∧
      heatable_mass defaultHeatPump 60 = none ∧
      ((heatable_mass defaultHeatPump 70).isSome = true ∧
        (heatable_mass defaultHeatPump 70).getD 0 < 0) := by
  refine ⟨(C10_heatable_mass 30).1 (by norm_num), (C10_heatable_mass 60).2.1 rfl,
    (C10_heatable_mass 70).2.2 (by norm_num)⟩
